import Mathlib

/-!
Verification development for `nfhl_util` (src/src/main.rs), a CLI that
inventories FEMA NFHL files.  The Rust program is shallowly embedded: HTTP
responses, HTML parse results and file-system fallibility are inputs (a
"world"), and the functions below mirror the source functions over those
inputs.  Machine effects (writing JSON to the out-file, creating
directories/files) are modelled as an explicit list of file-system actions
returned on success; panics and propagated errors are an `Except` error.
-/

namespace NfhlUtil

/-- The record type serialized for each inventory entry
(struct `InventoryEntry` in main.rs): four string fields. -/
structure InventoryEntry where
  effective_file_url : String
  effective_file_date : String
  preliminary_file_url : String
  preliminary_file_date : String
  deriving Repr, DecidableEq

/-- The inventory map (`HashMap<String, InventoryEntry>` in the source),
modelled as an association list with distinct keys; `insertEntry` below gives
it the HashMap overwrite semantics. -/
abbrev Inv := List (String × InventoryEntry)

/-- `HashMap::insert` semantics: the new binding replaces any old binding of
the same key. -/
def insertEntry (m : Inv) (k : String) (v : InventoryEntry) : Inv :=
  (k, v) :: m.filter (fun p => !(p.1 == k))

/-- `HashMap` lookup on the association-list model. -/
def lookupKey (k : String) : Inv → Option InventoryEntry
  | [] => none
  | (k2, v) :: rest => if k2 = k then some v else lookupKey k rest

/-- Number of bindings of key `k` in the association list. -/
def countKey (k : String) (m : Inv) : Nat :=
  (m.filter (fun p => p.1 == k)).length

/-! ### The regex `fileName=(.+?)[cC]_(.+?).zip`

The Rust `regex` crate finds the leftmost match; the lazy `+?` quantifiers
prefer the shortest capture, backtracking by growing it; `.` matches any
character except a newline.  The functions below implement exactly these
semantics for this one pattern over `List Char`. -/

/-- `.` in the pattern: any character except a line feed. -/
def isAnyChar (c : Char) : Bool := c != '\n'

/-- Matches the trailing `.zip` of the pattern at the head of the list:
one arbitrary (non-newline) character followed by the literal `zip`;
the rest of the string is unconstrained. -/
def matchesDotZip : List Char → Bool
  | c :: 'z' :: 'i' :: 'p' :: _ => isAnyChar c
  | _ => false

/-- Lazy matching of the second group `(.+?)` followed by `.zip`: the group
takes as few characters as possible (at least one), growing only when the
tail fails. Returns the captured characters. -/
def lazyGroup2 : List Char → Option (List Char)
  | [] => none
  | c :: rest =>
    if isAnyChar c then
      if matchesDotZip rest then some [c]
      else
        match lazyGroup2 rest with
        | some g2 => some (c :: g2)
        | none => none
    else none

/-- After the first group: the character class `[cC]`, the literal `_`, then
the second group and `.zip`.  Returns the second capture. -/
def matchAfterG1 : List Char → Option (List Char)
  | c :: '_' :: rest => if c == 'c' || c == 'C' then lazyGroup2 rest else none
  | _ => none

/-- Lazy matching of the first group `(.+?)`: shortest capture first, growing
on failure of the remainder of the pattern.  Returns both captures. -/
def lazyGroup1 : List Char → Option (List Char × List Char)
  | [] => none
  | c :: rest =>
    if isAnyChar c then
      match matchAfterG1 rest with
      | some g2 => some ([c], g2)
      | none =>
        match lazyGroup1 rest with
        | some (g1, g2) => some (c :: g1, g2)
        | none => none
    else none

/-- The literal `fileName=` then the two groups. -/
def matchFileName : List Char → Option (List Char × List Char)
  | 'f' :: 'i' :: 'l' :: 'e' :: 'N' :: 'a' :: 'm' :: 'e' :: '=' :: rest =>
    lazyGroup1 rest
  | _ => none

/-- Leftmost search: try the pattern at each start position in turn. -/
def reCapturesAux : List Char → Option (List Char × List Char)
  | [] => none
  | c :: rest =>
    match matchFileName (c :: rest) with
    | some caps => some caps
    | none => reCapturesAux rest

/-- `Regex::captures` for the pattern `fileName=(.+?)[cC]_(.+?).zip`:
`some (g1, g2)` with the two capture groups of the leftmost match, or `none`
when the string has no match. -/
def reCaptures (s : String) : Option (String × String) :=
  match reCapturesAux s.data with
  | some (g1, g2) => some (String.mk g1, String.mk g2)
  | none => none

/-! ### The parsed county page and the county scraper -/

/-- An `<a>` element of the parsed page: its `href` attribute may be absent. -/
structure Anchor where
  href : Option String
  deriving Repr, DecidableEq

/-- A `tbody tr` row of the parsed page: its anchors in document order. -/
structure Row where
  anchors : List Anchor
  deriving Repr, DecidableEq

/-- The rows selected by `tbody tr`, in document order. -/
abbrev Page := List Row

/-- Errors that abort a scraping function: a failed HTTP request, body read
or JSON deserialization (propagated with `?`), or the panic from
`.attr("href").unwrap()` on an anchor without an href. -/
inductive ScrapeError where
  | httpError
  | missingHref
  deriving Repr, DecidableEq

/-- URL base prepended to each county file href in main.rs. -/
def nfhlUrlBase : String := "https://hazards.fema.gov/femaportal/NFHL/"

/-- The record built for one county row in `get_effective_county_products`:
the effective pair from the href and regex captures, preliminary pair empty. -/
def mkCountyEntry (file_url date : String) : InventoryEntry :=
  { effective_file_url := nfhlUrlBase ++ file_url
  , effective_file_date := date
  , preliminary_file_url := ""
  , preliminary_file_date := "" }

/-- The body of the `for tr in parsed_html.select(&tr_selector)` loop: take
the row's first anchor if any, unwrap its href (panic when absent), run the
regex, and insert captures 1 and 2 as key and date. -/
def processRow (inv : Inv) (r : Row) : Option Inv :=
  match r.anchors.head? with
  | none => some inv
  | some a =>
    match a.href with
    | none => none
    | some file_url =>
      match reCaptures file_url with
      | none => some inv
      | some (county_fips, date) =>
        some (insertEntry inv county_fips (mkCountyEntry file_url date))

/-- The whole row loop, threading the map and propagating the panic. -/
def scrapeRows : List Row → Inv → Option Inv
  | [], inv => some inv
  | r :: rs, inv =>
    match processRow inv r with
    | none => none
    | some inv2 => scrapeRows rs inv2

/-- World of the county scraper: whether building the client, sending the
GET and reading the body succeed, and the parse of the body when they do. -/
structure CountyWorld where
  clientOk : Bool
  sendOk : Bool
  textOk : Bool
  page : Page

/-- `get_effective_county_products`: one blocking GET to the searchResult
page, HTML parse, `tbody tr` row loop with regex extraction. -/
def get_effective_county_products (w : CountyWorld) : Except ScrapeError Inv :=
  if w.clientOk then
    if w.sendOk then
      if w.textOk then
        match scrapeRows w.page [] with
        | some inv => .ok inv
        | none => .error .missingHref
      else .error .httpError
    else .error .httpError
  else .error .httpError

/-! ### The state scraper -/

/-- The uncommented entries of `state_to_representative_county` in main.rs. -/
def state_to_representative_county : List (String × String) :=
  [("AL", "01101"), ("AR", "05029")]

/-- World of the state scraper: client build and the session-establishing
GET, and per state whether the POST send and its JSON deserialization
succeed. -/
structure StateWorld where
  clientOk : Bool
  initGetOk : Bool
  postOk : String → Bool
  jsonOk : String → Bool

/-- The per-state loop: POST the search form and deserialize the JSON
response; the deserialized value is only debug-printed, nothing is inserted
into the map. -/
def statesLoop (w : StateWorld) : List (String × String) → Except ScrapeError Unit
  | [] => .ok ()
  | (state, _) :: rest =>
    if w.postOk state then
      if w.jsonOk state then statesLoop w rest
      else .error .httpError
    else .error .httpError

/-- `get_effective_state_products`: session GET, the per-state POST loop,
and the map `inv`, which is never written to. -/
def get_effective_state_products (w : StateWorld) : Except ScrapeError Inv :=
  if w.clientOk then
    if w.initGetOk then
      match statesLoop w state_to_representative_county with
      | .ok _ => .ok []
      | .error e => .error e
    else .error .httpError
  else .error .httpError

/-! ### JSON serialization (`serde_json::to_writer`) -/

/-- The fragment of JSON produced by serde for these values. -/
inductive Json where
  | str (s : String)
  | obj (fields : List (String × Json))

/-- serde serialization of `InventoryEntry`: one object, the four string
fields in declaration order. -/
def serializeEntry (e : InventoryEntry) : Json :=
  .obj [("effective_file_url", .str e.effective_file_url),
        ("effective_file_date", .str e.effective_file_date),
        ("preliminary_file_url", .str e.preliminary_file_url),
        ("preliminary_file_date", .str e.preliminary_file_date)]

/-- serde serialization of the map: one object, a member per entry. -/
def serializeInv (inv : Inv) : Json :=
  .obj (inv.map (fun p => (p.1, serializeEntry p.2)))

/-! ### `main`: CLI dispatch and file-system effects -/

/-- An `--outfile` path: its file name and its `parent()` when it has one. -/
structure OutPath where
  name : String
  parent : Option String

/-- The parsed CLI (`enum Commands` in main.rs). -/
inductive Commands where
  | states (outfile : OutPath) (politeness : Nat)
  | counties (outfile : OutPath) (politeness : Nat)
  | downloadAll (inventory : String) (cacheDir : String)
      (oldInventory : Option String) (delete : Bool) (politeness : Nat)

/-- Observable file-system actions of a run. -/
inductive FsAction where
  | createDirAll (path : String)
  | createFile (path : String)
  | writeJson (path : String) (content : Json)

/-- How a run aborts: an error propagated out of `main` with `?`, or the
panic from `.unwrap()` on a scraper error. -/
inductive RunError where
  | fsError
  | panicAbort (e : ScrapeError)

/-- World of a whole run: file-system fallibility plus both scraper worlds. -/
structure MainWorld where
  createDirOk : Bool
  createFileOk : Bool
  writeOk : Bool
  countyWorld : CountyWorld
  stateWorld : StateWorld

/-- `if let Some(outfile_dir) = outfile.parent() { create_dir_all(..)? }`. -/
def dirStep (ok : Bool) (parent : Option String) : Except RunError (List FsAction) :=
  match parent with
  | none => .ok []
  | some d => if ok then .ok [FsAction.createDirAll d] else .error .fsError

/-- The shared body of the two inventory arms of `main`: create the
out-file's parent directory and the out-file, unwrap the scraper result `r`
(a panic when it is an error), and serialize the returned map to the
out-file. -/
def inventoryCmd (w : MainWorld) (outfile : OutPath) (r : Except ScrapeError Inv) :
    Except RunError (List FsAction) :=
  match dirStep w.createDirOk outfile.parent with
  | .error e => .error e
  | .ok dirActs =>
    if w.createFileOk then
      match r with
      | .error e => .error (.panicAbort e)
      | .ok inv =>
        if w.writeOk then
          .ok (dirActs ++ [FsAction.createFile outfile.name,
                           FsAction.writeJson outfile.name (serializeInv inv)])
        else .error .fsError
    else .error .fsError

/-- The body of `main` after argument parsing: dispatch on the subcommand;
the inventory subcommands run their scraper and serialize its map; the
`DownloadAll` arm is empty. -/
def runMain (w : MainWorld) : Commands → Except RunError (List FsAction)
  | .states outfile _ =>
    inventoryCmd w outfile (get_effective_state_products w.stateWorld)
  | .counties outfile _ =>
    inventoryCmd w outfile (get_effective_county_products w.countyWorld)
  | .downloadAll _ _ _ _ _ => .ok []

/-! ### Model-side definitions used to state the claims -/

/-- The inventory binding one row contributes, per the claim's step
description: the row's first anchor's href run through the regex; `none` for
a row without anchor, without href, or whose href does not match. -/
def rowContribution (r : Row) : Option (String × InventoryEntry) :=
  match r.anchors.head? with
  | none => none
  | some a =>
    match a.href with
    | none => none
    | some file_url =>
      match reCaptures file_url with
      | none => none
      | some (county_fips, date) => some (county_fips, mkCountyEntry file_url date)

/-- One step of the claimed algorithm: fold a row's contribution into the
map, overwriting the key. -/
def stepModel (inv : Inv) (r : Row) : Inv :=
  match rowContribution r with
  | none => inv
  | some (k, e) => insertEntry inv k e

/-- The claimed county algorithm as a function of the parsed page: fold the
row contributions, in document order, into an initially empty map. -/
def countyStepsModel (page : Page) : Inv := page.foldl stepModel []

/-- Folding one row into the binding of a fixed key `k`: a row contributing
key `k` overwrites the accumulator, every other row leaves it unchanged. -/
def contribStep (k : String) (acc : Option InventoryEntry) (r : Row) : Option InventoryEntry :=
  match rowContribution r with
  | some (k2, e) => if k2 = k then some e else acc
  | none => acc

/-- The contribution of the last row (in document order) yielding key `k`. -/
def lastContribOf (page : Page) (k : String) : Option InventoryEntry :=
  page.foldl (contribStep k) none

/-- Whether some selected row's first anchor lacks an href attribute (the
condition under which the county scraper's `.unwrap()` panics). -/
def pageHasMissingHref (page : Page) : Bool :=
  page.any (fun r =>
    match r.anchors.head? with
    | some a => a.href.isNone
    | none => false)

/-- A failure inside the county scraper: the client build, the HTTP GET or
the body read fails, or a selected anchor lacks an href. -/
def countyRunFails (cw : CountyWorld) : Prop :=
  cw.clientOk = false ∨ cw.sendOk = false ∨ cw.textOk = false ∨
    pageHasMissingHref cw.page = true

/-- A failure inside the state scraper: the client build, the session GET,
some per-state POST or its JSON deserialization fails. -/
def stateRunFails (sw : StateWorld) : Prop :=
  sw.clientOk = false ∨ sw.initGetOk = false ∨
    ∃ p ∈ state_to_representative_county, sw.postOk p.1 = false ∨ sw.jsonOk p.1 = false

/-! ### Concrete sample worlds (used by witnesses) -/

/-- A county href of the shape found on the searchResult page. -/
def sampleHref : String := "product?fileName=01001C_20190517.zip"

/-- A row whose first anchor matches the regex. -/
def sampleRowGood : Row := ⟨[⟨some sampleHref⟩]⟩

/-- A row without any anchor. -/
def sampleRowNoAnchor : Row := ⟨[]⟩

/-- A row whose anchor's href does not match the regex. -/
def sampleRowNoMatch : Row := ⟨[⟨some "about.html"⟩]⟩

/-- A row whose anchor lacks an href attribute. -/
def sampleRowNoHref : Row := ⟨[⟨none⟩]⟩

/-- A small sample page. -/
def samplePage : Page := [sampleRowGood, sampleRowNoAnchor, sampleRowNoMatch]

/-- County world where every HTTP step succeeds. -/
def cwOk : CountyWorld := ⟨true, true, true, samplePage⟩

/-- State world where every HTTP step succeeds. -/
def swOk : StateWorld := ⟨true, true, fun _ => true, fun _ => true⟩

/-- An out-file without parent directory. -/
def p0 : OutPath := ⟨"inv.json", none⟩

/-- Whole-run world where everything succeeds. -/
def wOk : MainWorld := ⟨true, true, true, cwOk, swOk⟩

/-- County world whose page panics the scraper. -/
def cwBad : CountyWorld := ⟨true, true, true, [sampleRowGood, sampleRowNoHref]⟩

/-- State world whose session GET fails. -/
def swBad : StateWorld := ⟨true, false, fun _ => true, fun _ => true⟩

/-- Whole-run world where both scrapers fail. -/
def wBad : MainWorld := ⟨true, true, true, cwBad, swBad⟩

/-- An older href for the same county as `sampleHref`. -/
def dupHref : String := "product?fileName=01001C_20000101.zip"

/-- A page with two rows for the same county key, older first. -/
def dupPage : Page := [⟨[⟨some dupHref⟩]⟩, sampleRowGood]

/-- County world whose page has a duplicate county key. -/
def cwDup : CountyWorld := ⟨true, true, true, dupPage⟩

/-- The entry scraped from `sampleHref`. -/
def sampleEntry : InventoryEntry := mkCountyEntry sampleHref "20190517"

/-- The inventory scraped from `samplePage`. -/
def sampleInv : Inv := [("01001", sampleEntry)]

/-! ## Helper lemmas -/

theorem mem_insertEntry {m : Inv} {k k2 : String} {e v : InventoryEntry}
    (h : (k, e) ∈ insertEntry m k2 v) : (k = k2 ∧ e = v) ∨ (k, e) ∈ m := by
  unfold insertEntry at h
  rcases List.mem_cons.mp h with h | h
  · left; exact ⟨congrArg Prod.fst h, congrArg Prod.snd h⟩
  · right; exact (List.mem_filter.mp h).1

theorem processRow_some {inv inv2 : Inv} {r : Row}
    (h : processRow inv r = some inv2) : inv2 = stepModel inv r := by
  obtain ⟨anchors⟩ := r
  cases anchors with
  | nil =>
    simp [processRow] at h
    simp [stepModel, rowContribution, h]
  | cons a rest =>
    obtain ⟨href⟩ := a
    cases href with
    | none => simp [processRow] at h
    | some u =>
      cases hc : reCaptures u with
      | none =>
        simp [processRow, hc] at h
        simp [stepModel, rowContribution, hc, h]
      | some caps =>
        obtain ⟨fips, date⟩ := caps
        simp [processRow, hc] at h
        simp [stepModel, rowContribution, hc, ← h]

theorem processRow_none {inv : Inv} {r : Row} (h : processRow inv r = none) :
    ∃ a, r.anchors.head? = some a ∧ a.href = none := by
  obtain ⟨anchors⟩ := r
  cases anchors with
  | nil => simp [processRow] at h
  | cons a rest =>
    obtain ⟨href⟩ := a
    cases href with
    | none => exact ⟨⟨none⟩, rfl, rfl⟩
    | some u =>
      cases hc : reCaptures u with
      | none => simp [processRow, hc] at h
      | some caps =>
        obtain ⟨fips, date⟩ := caps
        simp [processRow, hc] at h

theorem scrapeRows_eq_foldl :
    ∀ (rows : List Row) (inv0 inv : Inv), scrapeRows rows inv0 = some inv →
      inv = rows.foldl stepModel inv0 := by
  intro rows
  induction rows with
  | nil => intro inv0 inv h; cases h; rfl
  | cons r rs ih =>
    intro inv0 inv h
    unfold scrapeRows at h
    cases hp : processRow inv0 r with
    | none => rw [hp] at h; cases h
    | some inv1 =>
      rw [hp] at h
      have := processRow_some hp
      subst this
      exact ih _ _ h

theorem rowContribution_some {r : Row} {k : String} {e : InventoryEntry}
    (h : rowContribution r = some (k, e)) :
    ∃ file_url date, reCaptures file_url = some (k, date) ∧
      e = mkCountyEntry file_url date ∧ r.anchors.head? = some ⟨some file_url⟩ := by
  obtain ⟨anchors⟩ := r
  cases anchors with
  | nil => simp [rowContribution] at h
  | cons a rest =>
    obtain ⟨href⟩ := a
    cases href with
    | none => simp [rowContribution] at h
    | some u =>
      cases hc : reCaptures u with
      | none => simp [rowContribution, hc] at h
      | some caps =>
        obtain ⟨fips, date⟩ := caps
        simp [rowContribution, hc] at h
        exact ⟨u, date, by rw [hc, h.1], h.2.symm, rfl⟩

theorem scrapeRows_mem :
    ∀ (rows : List Row) (inv0 inv : Inv), scrapeRows rows inv0 = some inv →
      ∀ k e, (k, e) ∈ inv →
        (k, e) ∈ inv0 ∨ ∃ file_url date, reCaptures file_url = some (k, date) ∧
          e = mkCountyEntry file_url date ∧
          ∃ r ∈ rows, r.anchors.head? = some ⟨some file_url⟩ := by
  intro rows
  induction rows with
  | nil => intro inv0 inv h k e hm; cases h; exact Or.inl hm
  | cons r rs ih =>
    intro inv0 inv h k e hm
    unfold scrapeRows at h
    cases hp : processRow inv0 r with
    | none => rw [hp] at h; cases h
    | some inv1 =>
      rw [hp] at h
      rcases ih _ _ h k e hm with hmem | ⟨u, d, hcap, he, rr, hrr, hhead⟩
      · have hst := processRow_some hp
        subst hst
        unfold stepModel at hmem
        cases hrc : rowContribution r with
        | none => rw [hrc] at hmem; exact Or.inl hmem
        | some p =>
          obtain ⟨k2, v⟩ := p
          rw [hrc] at hmem
          rcases mem_insertEntry hmem with ⟨hk, hv⟩ | hmem2
          · subst hk; subst hv
            obtain ⟨u, d, hcap, he, hhead⟩ := rowContribution_some hrc
            exact Or.inr ⟨u, d, hcap, he, r, List.mem_cons_self r rs, hhead⟩
          · exact Or.inl hmem2
      · exact Or.inr ⟨u, d, hcap, he, rr, List.mem_cons_of_mem _ hrr, hhead⟩

theorem lookupKey_filterNe (k k2 : String) (m : Inv) (hne : k2 ≠ k) :
    lookupKey k (m.filter (fun p => !(p.1 == k2))) = lookupKey k m := by
  induction m with
  | nil => rfl
  | cons p rest ih =>
    obtain ⟨k3, v3⟩ := p
    by_cases h3 : k3 = k2
    · subst h3
      have h3k : k3 ≠ k := hne
      simp [List.filter_cons, lookupKey, h3k, ih]
    · simp [List.filter_cons, lookupKey, h3, ih]

theorem lookupKey_insert (k k2 : String) (v : InventoryEntry) (m : Inv) :
    lookupKey k (insertEntry m k2 v) = if k2 = k then some v else lookupKey k m := by
  unfold insertEntry
  by_cases h : k2 = k
  · subst h; simp [lookupKey]
  · simp [lookupKey, h, lookupKey_filterNe k k2 m h]

theorem scrapeRows_lookupKey (k : String) :
    ∀ (rows : List Row) (inv0 inv : Inv), scrapeRows rows inv0 = some inv →
      lookupKey k inv = rows.foldl (contribStep k) (lookupKey k inv0) := by
  intro rows
  induction rows with
  | nil => intro inv0 inv h; cases h; rfl
  | cons r rs ih =>
    intro inv0 inv h
    unfold scrapeRows at h
    cases hp : processRow inv0 r with
    | none => rw [hp] at h; cases h
    | some inv1 =>
      rw [hp] at h
      have hst := processRow_some hp
      subst hst
      rw [List.foldl_cons, ih _ _ h]
      congr 1
      unfold stepModel contribStep
      cases hrc : rowContribution r with
      | none => rfl
      | some p =>
        obtain ⟨k2, v⟩ := p
        simp [lookupKey_insert]

theorem filter_key_filterNe (k k2 : String) (m : Inv) (hne : k2 ≠ k) :
    m.filter (fun a => a.1 == k && !(a.1 == k2)) = m.filter (fun p => p.1 == k) := by
  refine List.filter_congr ?_
  intro a _
  by_cases hak : a.1 = k
  · have hkk2 : k ≠ k2 := Ne.symm hne
    simp [hak, hkk2]
  · simp [hak]

theorem countKey_filterNe (k k2 : String) (m : Inv) (hne : k2 ≠ k) :
    countKey k (m.filter (fun p => !(p.1 == k2))) = countKey k m := by
  unfold countKey
  rw [List.filter_filter, filter_key_filterNe k k2 m hne]

theorem countKey_insert (k k2 : String) (v : InventoryEntry) (m : Inv) :
    countKey k (insertEntry m k2 v) = if k2 = k then 1 else countKey k m := by
  unfold insertEntry
  by_cases h : k2 = k
  · subst h
    have hnil : (m.filter (fun p => !(p.1 == k2))).filter (fun p => p.1 == k2) = [] := by
      rw [List.filter_eq_nil_iff]
      intro a ha
      have h2 := (List.mem_filter.mp ha).2
      simpa using h2
    simp [countKey, List.filter_cons, hnil]
  · rw [if_neg h]
    unfold countKey
    rw [List.filter_cons]
    have hhead : ((k2, v).1 == k) = false := by simp [h]
    rw [hhead]
    simp only [Bool.false_eq_true, if_false]
    have h2 := countKey_filterNe k k2 m h
    unfold countKey at h2
    exact h2

theorem scrapeRows_countKey (k : String) :
    ∀ (rows : List Row) (inv0 inv : Inv), scrapeRows rows inv0 = some inv →
      countKey k inv0 ≤ 1 → countKey k inv ≤ 1 := by
  intro rows
  induction rows with
  | nil => intro inv0 inv h h0; cases h; exact h0
  | cons r rs ih =>
    intro inv0 inv h h0
    unfold scrapeRows at h
    cases hp : processRow inv0 r with
    | none => rw [hp] at h; cases h
    | some inv1 =>
      rw [hp] at h
      have hst := processRow_some hp
      subst hst
      refine ih _ _ h ?_
      unfold stepModel
      cases hrc : rowContribution r with
      | none => exact h0
      | some p =>
        obtain ⟨k2, v⟩ := p
        rw [countKey_insert]
        by_cases hk : k2 = k
        · simp [hk]
        · simpa [hk] using h0

theorem scrapeRows_missingHref :
    ∀ (rows : List Row), pageHasMissingHref rows = true →
      ∀ inv0, scrapeRows rows inv0 = none := by
  intro rows
  induction rows with
  | nil => intro h; simp [pageHasMissingHref] at h
  | cons r rs ih =>
    intro h inv0
    unfold pageHasMissingHref at h
    rw [List.any_cons] at h
    rcases Bool.or_eq_true_iff.mp h with hr | hrs
    · obtain ⟨anchors⟩ := r
      cases anchors with
      | nil => simp at hr
      | cons a rest =>
        obtain ⟨href⟩ := a
        cases href with
        | none => rfl
        | some u => simp at hr
    · unfold scrapeRows
      cases hp : processRow inv0 r with
      | none => rfl
      | some inv1 => exact ih hrs inv1

theorem statesLoop_fails (w : StateWorld) :
    ∀ (l : List (String × String)),
      (∃ p ∈ l, w.postOk p.1 = false ∨ w.jsonOk p.1 = false) →
      statesLoop w l = .error .httpError := by
  intro l
  induction l with
  | nil => intro h; rcases h with ⟨p, hp, _⟩; exact absurd hp (List.not_mem_nil p)
  | cons q rest ih =>
    intro h
    obtain ⟨st, c⟩ := q
    cases hpost : w.postOk st with
    | false => unfold statesLoop; simp [hpost]
    | true =>
      cases hjson : w.jsonOk st with
      | false => unfold statesLoop; simp [hpost, hjson]
      | true =>
        have hrest : statesLoop w ((st, c) :: rest) = statesLoop w rest := by
          simp only [statesLoop, hpost, hjson, if_true]
        rw [hrest]
        apply ih
        rcases h with ⟨p, hp, hfail⟩
        rcases List.mem_cons.mp hp with heq | hmem
        · subst heq
          rcases hfail with hf | hf
          · rw [hpost] at hf; exact Bool.noConfusion hf
          · rw [hjson] at hf; exact Bool.noConfusion hf
        · exact ⟨p, hmem, hfail⟩

theorem county_products_ok {w : CountyWorld} {inv : Inv}
    (h : get_effective_county_products w = .ok inv) :
    scrapeRows w.page [] = some inv := by
  unfold get_effective_county_products at h
  cases hclient : w.clientOk
  · rw [hclient] at h; simp at h
  · rw [hclient] at h
    cases hsend : w.sendOk
    · rw [hsend] at h; simp at h
    · rw [hsend] at h
      cases htext : w.textOk
      · rw [htext] at h; simp at h
      · rw [htext] at h
        simp at h
        cases hs : scrapeRows w.page []
        · rw [hs] at h; simp at h
        · rw [hs] at h; simp at h; rw [h]

theorem state_products_ok {w : StateWorld} {inv : Inv}
    (h : get_effective_state_products w = .ok inv) : inv = [] := by
  unfold get_effective_state_products at h
  cases hclient : w.clientOk
  · rw [hclient] at h; simp at h
  · rw [hclient] at h
    cases hinit : w.initGetOk
    · rw [hinit] at h; simp at h
    · rw [hinit] at h
      simp at h
      cases hs : statesLoop w state_to_representative_county
      · rw [hs] at h; simp at h
      · rw [hs] at h; simp at h; exact h

theorem county_fails {cw : CountyWorld} (h : countyRunFails cw) :
    ∃ e, get_effective_county_products cw = .error e := by
  cases hclient : cw.clientOk
  · exact ⟨.httpError, by unfold get_effective_county_products; simp [hclient]⟩
  · cases hsend : cw.sendOk
    · exact ⟨.httpError, by unfold get_effective_county_products; simp [hclient, hsend]⟩
    · cases htext : cw.textOk
      · exact ⟨.httpError, by unfold get_effective_county_products; simp [hclient, hsend, htext]⟩
      · have hmiss : pageHasMissingHref cw.page = true := by
          rcases h with h | h | h | h
          · rw [hclient] at h; exact Bool.noConfusion h
          · rw [hsend] at h; exact Bool.noConfusion h
          · rw [htext] at h; exact Bool.noConfusion h
          · exact h
        refine ⟨.missingHref, ?_⟩
        unfold get_effective_county_products
        simp [hclient, hsend, htext, scrapeRows_missingHref cw.page hmiss []]

theorem state_fails {sw : StateWorld} (h : stateRunFails sw) :
    ∃ e, get_effective_state_products sw = .error e := by
  cases hclient : sw.clientOk
  · exact ⟨.httpError, by unfold get_effective_state_products; simp [hclient]⟩
  · cases hinit : sw.initGetOk
    · exact ⟨.httpError, by unfold get_effective_state_products; simp [hclient, hinit]⟩
    · have hloop : statesLoop sw state_to_representative_county = .error .httpError := by
        apply statesLoop_fails
        rcases h with h | h | h
        · rw [hclient] at h; exact Bool.noConfusion h
        · rw [hinit] at h; exact Bool.noConfusion h
        · exact h
      exact ⟨.httpError, by unfold get_effective_state_products; simp [hclient, hinit, hloop]⟩

theorem inventoryCmd_ok {w : MainWorld} {outfile : OutPath} {r : Except ScrapeError Inv}
    {acts : List FsAction} (h : inventoryCmd w outfile r = .ok acts) :
    ∃ inv dirActs, r = .ok inv ∧ dirStep w.createDirOk outfile.parent = .ok dirActs ∧
      acts = dirActs ++ [FsAction.createFile outfile.name,
                         FsAction.writeJson outfile.name (serializeInv inv)] := by
  unfold inventoryCmd at h
  cases hd : dirStep w.createDirOk outfile.parent with
  | error e => rw [hd] at h; simp at h
  | ok dirActs =>
    rw [hd] at h
    simp only [] at h
    cases hf : w.createFileOk
    · rw [hf] at h; simp at h
    · rw [hf] at h
      simp only [if_true] at h
      cases hr : r with
      | error e => rw [hr] at h; simp at h
      | ok inv =>
        rw [hr] at h
        cases hw : w.writeOk
        · rw [hw] at h; simp at h
        · rw [hw] at h
          simp at h
          exact ⟨inv, dirActs, rfl, rfl, h.symm⟩

theorem inventoryCmd_error {w : MainWorld} {outfile : OutPath} {r : Except ScrapeError Inv}
    {e : ScrapeError} (h : r = .error e) :
    ∃ er, inventoryCmd w outfile r = .error er := by
  subst h
  cases hd : dirStep w.createDirOk outfile.parent with
  | error e2 => exact ⟨e2, by unfold inventoryCmd; simp [hd]⟩
  | ok dirActs =>
    cases hf : w.createFileOk
    · exact ⟨.fsError, by unfold inventoryCmd; simp [hd, hf]⟩
    · exact ⟨.panicAbort e, by unfold inventoryCmd; simp [hd, hf]⟩

/-! ## The claims -/

/-- C1: every successful run of the `counties_inventory` subcommand writes
to the out-file the JSON serialization of the map returned by
`get_effective_county_products`. -/
theorem C1_counties_writes_scraper_map (w : MainWorld) (p : OutPath) (pol : Nat)
    (acts : List FsAction) (h : runMain w (.counties p pol) = .ok acts) :
    ∃ inv, get_effective_county_products w.countyWorld = .ok inv ∧
      ∃ dirActs, dirStep w.createDirOk p.parent = .ok dirActs ∧
        acts = dirActs ++ [FsAction.createFile p.name,
                           FsAction.writeJson p.name (serializeInv inv)] := by
  unfold runMain at h
  obtain ⟨inv, dirActs, hr, hd, ha⟩ := inventoryCmd_ok h
  exact ⟨inv, hr, dirActs, hd, ha⟩

/-- Witness for C1 at a concrete world. -/
theorem C1_counties_writes_scraper_map_witness :
    ∃ inv, get_effective_county_products wOk.countyWorld = .ok inv ∧
      ∃ dirActs, dirStep wOk.createDirOk p0.parent = .ok dirActs ∧
        [FsAction.createFile p0.name, FsAction.writeJson p0.name (serializeInv sampleInv)] =
          dirActs ++ [FsAction.createFile p0.name,
                      FsAction.writeJson p0.name (serializeInv inv)] :=
  C1_counties_writes_scraper_map wOk p0 9
    [FsAction.createFile p0.name, FsAction.writeJson p0.name (serializeInv sampleInv)] rfl

/-- C2: the state scraper debug-prints the per-state JSON search responses
without integrating them: a successful `get_effective_state_products` call
returns the empty map, and a successful `states_inventory` run writes the
serialization of the empty inventory. -/
theorem C2_states_inventory_empty (w : MainWorld) (p : OutPath) (pol : Nat)
    (inv : Inv) (acts : List FsAction)
    (h1 : get_effective_state_products w.stateWorld = .ok inv)
    (h2 : runMain w (.states p pol) = .ok acts) :
    inv = [] ∧ ∃ dirActs, dirStep w.createDirOk p.parent = .ok dirActs ∧
      acts = dirActs ++ [FsAction.createFile p.name,
                         FsAction.writeJson p.name (serializeInv ([] : Inv))] := by
  have hinv := state_products_ok h1
  subst hinv
  refine ⟨rfl, ?_⟩
  unfold runMain at h2
  obtain ⟨inv2, dirActs, hr, hd, ha⟩ := inventoryCmd_ok h2
  have h0 : inv2 = [] := state_products_ok hr
  subst h0
  exact ⟨dirActs, hd, ha⟩

/-- Witness for C2 at a concrete world. -/
theorem C2_states_inventory_empty_witness :
    ([] : Inv) = [] ∧ ∃ dirActs, dirStep wOk.createDirOk p0.parent = .ok dirActs ∧
      [FsAction.createFile p0.name, FsAction.writeJson p0.name (serializeInv ([] : Inv))] =
        dirActs ++ [FsAction.createFile p0.name,
                    FsAction.writeJson p0.name (serializeInv ([] : Inv))] :=
  C2_states_inventory_empty wOk p0 3 []
    [FsAction.createFile p0.name, FsAction.writeJson p0.name (serializeInv ([] : Inv))] rfl rfl

/-- C3: on success the county scraper's result is exactly the map built by
folding, over the `tbody tr` rows in document order, each row's first
anchor's href through the regex `fileName=(.+?)[cC]_(.+?).zip` — the first
capture is the key and the second the effective date; rows with no anchor or
whose href does not match contribute no entry. -/
theorem C3_county_scraper_steps (w : CountyWorld) (inv : Inv)
    (h : get_effective_county_products w = .ok inv) :
    inv = countyStepsModel w.page :=
  scrapeRows_eq_foldl w.page [] inv (county_products_ok h)

/-- Witness for C3 on a page with a matching row, an anchorless row and a
non-matching row. -/
theorem C3_county_scraper_steps_witness : sampleInv = countyStepsModel samplePage :=
  C3_county_scraper_steps cwOk sampleInv rfl

/-- C4: the `download_all` subcommand's match arm is empty: for every
combination of its arguments it performs no file-system action and `main`
returns success. -/
theorem C4_download_all_noop (w : MainWorld) (inventory cacheDir : String)
    (oldInventory : Option String) (delete : Bool) (politeness : Nat) :
    runMain w (.downloadAll inventory cacheDir oldInventory delete politeness) = .ok [] :=
  rfl

/-- C5: the politeness argument is parsed but never read: each subcommand
behaves identically for any two politeness values in otherwise identical
worlds. -/
theorem C5_politeness_noninterference (w : MainWorld) (p : OutPath) (pol1 pol2 : Nat)
    (inventory cacheDir : String) (oldInventory : Option String) (delete : Bool) :
    runMain w (.states p pol1) = runMain w (.states p pol2) ∧
    runMain w (.counties p pol1) = runMain w (.counties p pol2) ∧
    runMain w (.downloadAll inventory cacheDir oldInventory delete pol1) =
      runMain w (.downloadAll inventory cacheDir oldInventory delete pol2) :=
  ⟨rfl, rfl, rfl⟩

/-- C6: a failed HTTP request, body read or JSON deserialization inside
either scraper, or a selected anchor without an href attribute, aborts the
run: the scraper returns an error, and the whole run ends in an error
(main's unwrap), producing no file-system actions. -/
theorem C6_failure_aborts (w : MainWorld) (p q : OutPath) (pol1 pol2 : Nat)
    (hc : countyRunFails w.countyWorld) (hs : stateRunFails w.stateWorld) :
    (∃ e, get_effective_county_products w.countyWorld = .error e) ∧
    (∃ e, get_effective_state_products w.stateWorld = .error e) ∧
    (∃ er, runMain w (.counties p pol1) = .error er) ∧
    (∃ er, runMain w (.states q pol2) = .error er) := by
  obtain ⟨e1, he1⟩ := county_fails hc
  obtain ⟨e2, he2⟩ := state_fails hs
  refine ⟨⟨e1, he1⟩, ⟨e2, he2⟩, ?_, ?_⟩
  · unfold runMain
    exact inventoryCmd_error he1
  · unfold runMain
    exact inventoryCmd_error he2

/-- Witness for C6: a page with a missing href panics the county scraper and
a failed session GET aborts the state scraper. -/
theorem C6_failure_aborts_witness :
    (∃ e, get_effective_county_products wBad.countyWorld = .error e) ∧
    (∃ e, get_effective_state_products wBad.stateWorld = .error e) ∧
    (∃ er, runMain wBad (.counties p0 1) = .error er) ∧
    (∃ er, runMain wBad (.states p0 2) = .error er) :=
  C6_failure_aborts wBad p0 p0 1 2 (Or.inr (Or.inr (Or.inr rfl))) (Or.inr (Or.inl rfl))

/-- C7: the data model is a flat key-to-record map whose record has exactly
four string fields — effective and preliminary URL/date pairs — and every
value either scraper produces is such a record, serializing to exactly those
four string members. -/
theorem C7_entry_is_four_string_fields (cw : CountyWorld) (sw : StateWorld)
    (inv1 inv2 : Inv) (k : String) (e : InventoryEntry)
    (hc : get_effective_county_products cw = .ok inv1)
    (hs : get_effective_state_products sw = .ok inv2)
    (hm : (k, e) ∈ inv1 ∨ (k, e) ∈ inv2) :
    (∃ u d pu pd : String, e = ⟨u, d, pu, pd⟩) ∧
    serializeEntry e = Json.obj
      [("effective_file_url", Json.str e.effective_file_url),
       ("effective_file_date", Json.str e.effective_file_date),
       ("preliminary_file_url", Json.str e.preliminary_file_url),
       ("preliminary_file_date", Json.str e.preliminary_file_date)] :=
  ⟨⟨e.effective_file_url, e.effective_file_date, e.preliminary_file_url,
    e.preliminary_file_date, rfl⟩, rfl⟩

/-- Witness for C7 at a concrete scraped entry. -/
theorem C7_entry_is_four_string_fields_witness :
    (∃ u d pu pd : String, sampleEntry = ⟨u, d, pu, pd⟩) ∧
    serializeEntry sampleEntry = Json.obj
      [("effective_file_url", Json.str sampleEntry.effective_file_url),
       ("effective_file_date", Json.str sampleEntry.effective_file_date),
       ("preliminary_file_url", Json.str sampleEntry.preliminary_file_url),
       ("preliminary_file_date", Json.str sampleEntry.preliminary_file_date)] :=
  C7_entry_is_four_string_fields cwOk swOk sampleInv [] "01001" sampleEntry rfl rfl
    (Or.inl (List.mem_singleton.mpr rfl))

/-- C8: the county scraper never populates preliminary product data: both
preliminary fields of every produced entry are the empty string. -/
theorem C8_county_preliminary_empty (w : CountyWorld) (inv : Inv)
    (k : String) (e : InventoryEntry)
    (h : get_effective_county_products w = .ok inv) (hm : (k, e) ∈ inv) :
    e.preliminary_file_url = "" ∧ e.preliminary_file_date = "" := by
  rcases scrapeRows_mem w.page [] inv (county_products_ok h) k e hm with
    hnil | ⟨u, d, _, he, _⟩
  · exact absurd hnil (List.not_mem_nil _)
  · subst he; exact ⟨rfl, rfl⟩

/-- Witness for C8 at a concrete scraped entry. -/
theorem C8_county_preliminary_empty_witness :
    sampleEntry.preliminary_file_url = "" ∧ sampleEntry.preliminary_file_date = "" :=
  C8_county_preliminary_empty cwOk sampleInv "01001" sampleEntry rfl
    (List.mem_singleton.mpr rfl)

/-- C9: each county entry's effective_file_url is the NFHL base URL
concatenated with the href of the anchor its key and date were extracted
from. -/
theorem C9_effective_url_is_base_plus_href (w : CountyWorld) (inv : Inv)
    (k : String) (e : InventoryEntry)
    (h : get_effective_county_products w = .ok inv) (hm : (k, e) ∈ inv) :
    ∃ file_url, e.effective_file_url = nfhlUrlBase ++ file_url ∧
      reCaptures file_url = some (k, e.effective_file_date) ∧
      ∃ r ∈ w.page, r.anchors.head? = some ⟨some file_url⟩ := by
  rcases scrapeRows_mem w.page [] inv (county_products_ok h) k e hm with
    hnil | ⟨u, d, hcap, he, hrow⟩
  · exact absurd hnil (List.not_mem_nil _)
  · subst he
    exact ⟨u, rfl, hcap, hrow⟩

/-- Witness for C9 at a concrete scraped entry. -/
theorem C9_effective_url_is_base_plus_href_witness :
    ∃ file_url, sampleEntry.effective_file_url = nfhlUrlBase ++ file_url ∧
      reCaptures file_url = some ("01001", sampleEntry.effective_file_date) ∧
      ∃ r ∈ cwOk.page, r.anchors.head? = some ⟨some file_url⟩ :=
  C9_effective_url_is_base_plus_href cwOk sampleInv "01001" sampleEntry rfl
    (List.mem_singleton.mpr rfl)

/-- C10: later rows with the same county FIPS key overwrite earlier ones:
the returned inventory has at most one binding per key, and that binding is
the contribution of the last row in document order yielding the key. -/
theorem C10_last_row_wins (w : CountyWorld) (inv : Inv) (k : String)
    (h : get_effective_county_products w = .ok inv) :
    countKey k inv ≤ 1 ∧ lookupKey k inv = lastContribOf w.page k := by
  have hs := county_products_ok h
  refine ⟨scrapeRows_countKey k w.page [] inv hs (Nat.zero_le 1), ?_⟩
  exact scrapeRows_lookupKey k w.page [] inv hs

/-- Witness for C10 on a page with two rows for the same county key. -/
theorem C10_last_row_wins_witness :
    countKey "01001" sampleInv ≤ 1 ∧
      lookupKey "01001" sampleInv = lastContribOf cwDup.page "01001" :=
  C10_last_row_wins cwDup sampleInv "01001" rfl

end NfhlUtil
